import Mathlib

/-
Verification of the evaluation subsystem specification of this repository
(dataset fingerprinting, evaluator resolution, evaluation dispatch and
aggregation, result persistence, dataset provenance tagging).

The repository snapshot ships only the test suite of the evaluation
subsystem (tests/evaluate/test_evaluation.py); the implementation modules
(mlflow/data/evaluation_dataset.py and mlflow/models/evaluation/base.py)
are not part of the snapshot.  Every definition below is therefore a
shallow model reconstructed from the specification, with the concrete
behaviours pinned by the assertions of the in-repository test suite.

The md5 accumulator is modelled as the exact sequence of values folded
into it (a perfect digest): two digests are equal exactly when the byte
streams fed to md5 are equal.  This is the intended reading of the
specification, which uses the checksum purely as a content identity.
-/

namespace MlflowEval

/-- Modelled from the spec: the fixed sampling-row constant of
`EvaluationDataset` used by `_gen_md5_for_arraylike_obj` (the
implementation module `mlflow/data/evaluation_dataset.py` is missing from
the snapshot).  Its value is pinned by test_gen_md5_for_arraylike_obj:
the 20-element variants are fully hashed and pairwise distinct, while the
21-element variants hash equal despite differing at index 10, which holds
exactly when only the first 10 and last 10 rows of longer data are
hashed. -/
def NUM_SAMPLE_ROWS_FOR_HASH : Nat := 10

/-- Modelled from the spec: `_gen_md5_for_arraylike_obj` folds the length
of the data into the running digest, then the cells themselves: all of
them when the data has fewer than `2 * NUM_SAMPLE_ROWS_FOR_HASH` rows,
otherwise only the first and last `NUM_SAMPLE_ROWS_FOR_HASH` rows.
The accumulator is the stream of folded values. -/
def gen_md5_for_arraylike_obj (md5Acc : List Int) (data : List Int) : List Int :=
  md5Acc ++ (Int.ofNat data.length) ::
    (if data.length < 2 * NUM_SAMPLE_ROWS_FOR_HASH then
      data
    else
      data.take NUM_SAMPLE_ROWS_FOR_HASH ++ data.drop (data.length - NUM_SAMPLE_ROWS_FOR_HASH))

/-- Digest of array-like data seeded into a fresh md5 accumulator,
mirroring the `get_md5` helper of test_gen_md5_for_arraylike_obj. -/
def getMd5 (data : List Int) : List Int :=
  gen_md5_for_arraylike_obj [] data

/-- `list(range(20))` of the fingerprinting regression test. -/
def list0 : List Int := (List.range 20).map Int.ofNat

/-- `[100] + list0[1:]` of the fingerprinting regression test. -/
def list1 : List Int := 100 :: list0.drop 1

/-- `list0[:-1] + [100]` of the fingerprinting regression test. -/
def list2 : List Int := list0.take 19 ++ [100]

/-- `list0[:10] + [100] + list0[10:]` of the fingerprinting regression test. -/
def list3 : List Int := list0.take 10 ++ 100 :: list0.drop 10

/-- `list0[:10] + [99] + list0[10:]` of the fingerprinting regression test. -/
def list4 : List Int := list0.take 10 ++ 99 :: list0.drop 10

/-- A flat evaluator configuration mapping (JSON object of scalars),
modelled as an association list. -/
abbrev Config := List (String × Int)

/-- Modelled from the spec: the user-supplied evaluator selector of
`resolve_evaluators_and_configs` — absent, a single name, or a list of
names (`mlflow/models/evaluation/base.py` is missing from the snapshot). -/
inductive EvaluatorsArg where
  | noEvaluators
  | single (name : String)
  | names (l : List String)

/-- Modelled from the spec: the `evaluator_config` argument — absent, a
flat mapping applied to every resolved evaluator, or a mapping-of-mappings
keyed by evaluator name (the two shapes are detected in the source by
whether the values are themselves mappings; here the distinction is
carried by the constructor). -/
inductive EvaluatorConfigArg where
  | noCfg
  | flat (c : Config)
  | nested (m : List (String × Config))

/-- A resolved (name, effective configuration) entry; the evaluator
implementation itself is identified by its registered name. -/
structure ResolvedEvaluator where
  name : String
  config : Config
  deriving DecidableEq

/-- Modelled from the spec: the process-wide evaluator registry — the set
of registered names together with each evaluator's self-declared
capability per model type (used when resolving the fixed chain of a
model-type family). -/
structure Registry where
  names : List String
  canEvaluate : String → String → Bool

/-- The names of the built-in evaluators. -/
def builtinEvaluatorNames : List String := ["default", "classifier", "regressor", "shap"]

/-- Modelled from the spec: the fixed evaluator chain of each built-in
model-type family (domain evaluator followed by the explainability
evaluator). -/
def builtinChain : String → Option (List String)
  | "classifier" => some ["classifier", "shap"]
  | "regressor" => some ["regressor", "shap"]
  | _ => none

/-- Modelled from the spec: the effective configuration of one resolved
member — a flat config applies as is; in a nested config the per-name
entry takes precedence over a default-keyed entry, which is copied onto
built-in chain members lacking their own entry, while other members
receive the empty mapping. -/
def chainMemberConfig (cfg : EvaluatorConfigArg) (n : String) : Config :=
  match cfg with
  | .noCfg => []
  | .flat c => c
  | .nested m =>
    match m.lookup n with
    | some c => c
    | none =>
      if builtinEvaluatorNames.contains n then (m.lookup "default").getD [] else []

/-- Builds the resolved entry of one member name under the given config
argument. -/
def mkResolved (cfg : EvaluatorConfigArg) (n : String) : ResolvedEvaluator :=
  ⟨n, chainMemberConfig cfg n⟩

/-- Modelled from the spec: one member of a list selector — the generic
default alias expands to the model-type chain when one exists, and names
missing from the registry are dropped. -/
def expandListMember (reg : Registry) (modelType : Option String) (n : String) : List String :=
  if n = "default" then
    match modelType with
    | some mt =>
      match builtinChain mt with
      | some chain => chain
      | none => if reg.names.contains n then [n] else []
    | none => if reg.names.contains n then [n] else []
  else if reg.names.contains n then [n] else []

/-- The configuration-shape error raised when a list of evaluator names is
paired with a config that is not a per-name mapping covering only the
requested names. -/
def resolveConfigListError : String :=
  "If evaluators argument is an evaluator name list, evaluator_config must be a dict containing a mapping from evaluator name to individual evaluator config dict."

/-- The dependency-missing error of the managed databricks-agent model
type. -/
def databricksAgentError : String :=
  "Databricks Agents SDK must be installed to use the databricks-agent model type."

/-- Modelled from the spec: the fail-fast validation of
`resolve_evaluators_and_configs` — a managed model type without its SDK
fails, and a list of evaluator names requires a per-name config whose
keys all belong to the requested names. -/
def resolveErrorCheck (evaluators : EvaluatorsArg) (cfg : EvaluatorConfigArg)
    (modelType : Option String) : Option String :=
  match evaluators with
  | .noEvaluators =>
    if modelType = some "databricks-agent" then some databricksAgentError else none
  | .single _ => none
  | .names ns =>
    match cfg with
    | .noCfg => none
    | .flat _ => some resolveConfigListError
    | .nested m =>
      if m.all fun p => ns.contains p.1 then none else some resolveConfigListError

/-- Modelled from the spec: the ordered member names produced by
resolution — an absent selector yields the model-type chain plus every
registered third-party evaluator able to evaluate that model type (or the
single default evaluator); a single name yields that evaluator alone
unless it is the default alias with a known model type; a list resolves
each member in order, dropping unknown names. -/
def resolvedNames (reg : Registry) (evaluators : EvaluatorsArg)
    (modelType : Option String) : List String :=
  match evaluators with
  | .noEvaluators =>
    match modelType with
    | some mt =>
      match builtinChain mt with
      | some chain =>
        chain ++ reg.names.filter fun n =>
          !builtinEvaluatorNames.contains n && reg.canEvaluate n mt
      | none => ["default"]
    | none => ["default"]
  | .single n =>
    if n = "default" then
      match modelType with
      | some mt =>
        match builtinChain mt with
        | some chain => chain
        | none => ["default"]
      | none => ["default"]
    else if reg.names.contains n then [n] else []
  | .names ns => ns.flatMap (expandListMember reg modelType)

/-- Modelled from the spec: `resolve_evaluators_and_configs` turns the
selector and the configuration argument into the ordered list of
(name, effective config) entries, or fails fast on a malformed
configuration or a missing managed dependency
(`mlflow/models/evaluation/base.py` is missing from the snapshot). -/
def resolve_evaluators_and_configs (reg : Registry) (evaluators : EvaluatorsArg)
    (cfg : EvaluatorConfigArg) (modelType : Option String) :
    Except String (List ResolvedEvaluator) :=
  match resolveErrorCheck evaluators cfg modelType with
  | some e => .error e
  | none => .ok ((resolvedNames reg evaluators modelType).map (mkResolved cfg))

/-- The registry in force in the resolution tests: the built-in evaluators
plus the third-party dummy evaluator of the test plugin, which declares
capability for the classifier and regressor model types. -/
def testRegistry : Registry :=
  ⟨["default", "classifier", "regressor", "shap", "dummy_evaluator"],
   fun n mt => n == "dummy_evaluator" && (mt == "classifier" || mt == "regressor")⟩

/-- An evaluation artifact handle: uri, serializable class identity and
(lazily loaded) content, the content modelled as its serialized form. -/
structure Artifact where
  uri : String
  className : String
  content : String
  deriving DecidableEq

/-- An evaluation result: metric name to value and artifact name to
artifact handle, both in insertion order. -/
structure EvaluationResult where
  metrics : List (String × Int)
  artifacts : List (String × Artifact)
  deriving DecidableEq

/-- Mapping union in the manner of a Python dict update: keys of the
first mapping keep their position but take the second mapping's value on
collision, and keys exclusive to the second mapping are appended. -/
def mergeAssoc {α : Type} (a b : List (String × α)) : List (String × α) :=
  (a.map fun p => (p.1, (b.lookup p.1).getD p.2)) ++
    b.filter fun p => (a.lookup p.1).isNone

/-- Modelled from the spec: merging one evaluator's returned result into
the running aggregate — union by name with last-writer-wins on both
metrics and artifacts. -/
def mergeResult (a b : EvaluationResult) : EvaluationResult :=
  ⟨mergeAssoc a.metrics b.metrics, mergeAssoc a.artifacts b.artifacts⟩

/-- The empty aggregate the dispatch loop starts from. -/
def emptyResult : EvaluationResult := ⟨[], []⟩

/-- An evaluator implementation as dispatch sees it: its registered name,
its capability check, and the result its evaluate method returns
(modelled as a pure value). -/
structure Evaluator where
  name : String
  canEvaluate : String → Config → Bool
  result : EvaluationResult

/-- The error raised when every resolved evaluator declines. -/
def noCapableEvaluatorError : String :=
  "The model could not be evaluated by any of the registered evaluators."

/-- One step of the dispatch loop: the capability check of the entry is
always recorded; when it returns true the evaluate invocation is recorded
and its result merged into the aggregate, otherwise the entry is
skipped. -/
def dispatchStep (mt : String)
    (acc : EvaluationResult × List (String × Config) × List (String × Config))
    (e : Evaluator × Config) :
    EvaluationResult × List (String × Config) × List (String × Config) :=
  let cans := acc.2.1 ++ [(e.1.name, e.2)]
  if e.1.canEvaluate mt e.2 then
    (mergeResult acc.1 e.1.result, cans, acc.2.2 ++ [(e.1.name, e.2)])
  else
    (acc.1, cans, acc.2.2)

/-- The observable outcome of one dispatch run: the aggregated result or
the terminal error, plus the recorded capability-check and evaluate
invocations (name and config of each call, in call order). -/
structure DispatchOutcome where
  result : Except String EvaluationResult
  canCalls : List (String × Config)
  evalCalls : List (String × Config)

/-- Modelled from the spec: the dispatch-and-aggregation loop — each
resolved entry is asked for capability with the model type and its
effective config; capable evaluators are invoked in resolution order and
their metrics and artifacts merged last-writer-wins; if zero evaluators
were capable the whole call fails
(`mlflow/models/evaluation/base.py` is missing from the snapshot). -/
def dispatch (entries : List (Evaluator × Config)) (mt : String) : DispatchOutcome :=
  let s := entries.foldl (dispatchStep mt) (emptyResult, [], [])
  if s.2.2.isEmpty then ⟨.error noCapableEvaluatorError, s.2.1, s.2.2⟩
  else ⟨.ok s.1, s.2.1, s.2.2⟩

/-- The contradiction error raised when the model_id parameter disagrees
with the identity already associated with the model, naming both ids. -/
def modelIdContradictionError (p u : String) : String :=
  "The specified value of the model_id parameter " ++ p ++
    " contradicts the model_id " ++ u ++
    " associated with the model. Please ensure they match or omit the model_id parameter."

/-- Modelled from the spec: the model-identity consistency check — when
the model carries an associated identity and the caller also passes one,
the two must match or the call fails with the contradiction error; the
effective identity is returned otherwise. -/
def checkModelIdConsistency (modelAssociatedId paramModelId : Option String) :
    Except String (Option String) :=
  match modelAssociatedId, paramModelId with
  | some u, some p =>
    if p = u then .ok (some u) else .error (modelIdContradictionError p u)
  | some u, none => .ok (some u)
  | none, p => .ok p

/-- Modelled from the spec: the evaluate entry point as far as the claims
reach — the identity consistency check runs first and a contradiction
fails the call before any evaluator is consulted; otherwise the resolved
entries are dispatched. -/
def evaluateCall (modelAssociatedId paramModelId : Option String)
    (entries : List (Evaluator × Config)) (mt : String) : DispatchOutcome :=
  match checkModelIdConsistency modelAssociatedId paramModelId with
  | .error msg => ⟨.error msg, [], []⟩
  | .ok _ => dispatch entries mt

/-- Modelled from the spec: the file extension of a persisted artifact,
a fixed function of its serializable class identity. -/
def classExt (className : String) : String :=
  if className = "mlflow.models.evaluation.artifacts.ImageEvaluationArtifact" then "png"
  else "csv"

/-- The name of the file a named artifact is persisted under inside the
artifacts directory. -/
def artifactFileName (n : String) (className : String) : String :=
  n ++ "." ++ classExt className

/-- Modelled from the spec: the persisted form of an evaluation result —
metrics.json, artifacts_metadata.json mapping each artifact name to its
uri and class name, and the artifacts directory mapping file names to
file contents. -/
structure SavedEvaluationResult where
  metricsJson : List (String × Int)
  artifactsMetadata : List (String × String × String)
  artifactsDir : List (String × String)
  deriving DecidableEq

/-- Modelled from the spec: `EvaluationResult.save` writes the metric
mapping, the artifact metadata, and one content file per artifact. -/
def EvaluationResult.save (r : EvaluationResult) : SavedEvaluationResult :=
  ⟨r.metrics,
   r.artifacts.map fun p => (p.1, p.2.uri, p.2.className),
   r.artifacts.map fun p => (artifactFileName p.1 p.2.className, p.2.content)⟩

/-- Modelled from the spec: `EvaluationResult.load` reads the metric
mapping back, and rebuilds each artifact from its metadata entry,
re-loading the content from the saved file of that artifact. -/
def EvaluationResult.load (s : SavedEvaluationResult) : EvaluationResult :=
  ⟨s.metricsJson,
   s.artifactsMetadata.map fun q =>
     (q.1, ⟨q.2.1, q.2.2, (s.artifactsDir.lookup (artifactFileName q.1 q.2.2)).getD ""⟩)⟩

/-- The metadata of one dataset as recorded in the run tag: content hash,
name, optional source path, and the model identity the evaluation was
attached to. -/
structure DatasetMeta where
  hash : String
  name : String
  path : Option String
  model : String
  deriving DecidableEq

/-- Modelled from the spec: `_log_dataset_tag` appends the dataset's
metadata to the tag value unless an entry with the same content hash is
already present (`mlflow/data/evaluation_dataset.py` is missing from the
snapshot). -/
def logDatasetTag (existing : List DatasetMeta) (m : DatasetMeta) : List DatasetMeta :=
  if existing.any fun e => e.hash == m.hash then existing else existing ++ [m]

/-- Compact serialization of one metadata entry (single-line JSON object,
no separator whitespace). -/
def serializeDatasetMeta (m : DatasetMeta) : String :=
  "\x7b\"hash\":\"" ++ m.hash ++ "\",\"name\":\"" ++ m.name ++ "\"" ++
    (match m.path with
     | some p => ",\"path\":\"" ++ p ++ "\""
     | none => "") ++
    ",\"model\":\"" ++ m.model ++ "\"\x7d"

/-- Joins serialized entries with commas and no whitespace. -/
def joinComma : List String → String
  | [] => ""
  | [s] => s
  | s :: rest => s ++ "," ++ joinComma rest

/-- Modelled from the spec: the raw value of the datasets run tag — a
compact JSON array of the metadata entries. -/
def serializeDatasetsTag (l : List DatasetMeta) : String :=
  "[" ++ joinComma (l.map serializeDatasetMeta) ++ "]"

/-- Whether a string is free of whitespace characters. -/
def hasNoWhitespace (s : String) : Bool :=
  s.data.all fun c => !c.isWhitespace

/-- Whether every field of a metadata entry is free of whitespace. -/
def metaNoWhitespace (m : DatasetMeta) : Bool :=
  hasNoWhitespace m.hash && hasNoWhitespace m.name &&
    (match m.path with
     | some p => hasNoWhitespace p
     | none => true) &&
    hasNoWhitespace m.model

/-- C1 counterexample: the two 21-element lists of the claim differ only
in the middle cell yet produce the same digest, because data with at
least twice the sampling-row count of rows is hashed only over its first
and last `NUM_SAMPLE_ROWS_FOR_HASH` rows. -/
theorem fingerprint_middle_cell_countereexample :
    list3.length = 21 ∧ list4.length = 21 ∧ list3 ≠ list4 ∧
      getMd5 list3 = getMd5 list4 := by
  decide

/-- C1 (amended): changing a single cell of data with fewer than
`2 * NUM_SAMPLE_ROWS_FOR_HASH` rows changes the digest; inserting a cell
anywhere always changes the digest (the folded length changes); but the
two 21-element lists of the claim, differing only in the middle cell,
have EQUAL digests, since data that long is hashed only over its first
and last `NUM_SAMPLE_ROWS_FOR_HASH` rows. -/
theorem fingerprint_single_cell_amended :
    (∀ (l : List Int) (i : Nat) (v : Int) (h1 : i < l.length),
       l.length < 2 * NUM_SAMPLE_ROWS_FOR_HASH → v ≠ l.get ⟨i, h1⟩ →
       getMd5 (l.set i v) ≠ getMd5 l) ∧
    (∀ (l1 l2 : List Int) (v : Int), getMd5 (l1 ++ v :: l2) ≠ getMd5 (l1 ++ l2)) ∧
    getMd5 list3 = getMd5 list4 := by
  refine ⟨?_, ?_, by decide⟩
  · intro l i v h1 h2 h3 heq
    unfold getMd5 gen_md5_for_arraylike_obj at heq
    rw [List.length_set] at heq
    rw [if_pos h2, if_pos h2] at heq
    simp only [List.nil_append, List.cons.injEq] at heq
    have h4 : (l.set i v)[i]? = l[i]? := by rw [heq.2]
    rw [List.getElem?_set_self (by simpa using h1), List.getElem?_eq_getElem h1] at h4
    exact h3 (by simpa using h4)
  · intro l1 l2 v heq
    unfold getMd5 gen_md5_for_arraylike_obj at heq
    simp only [List.nil_append, List.cons.injEq] at heq
    have hlen : (l1 ++ v :: l2).length = (l1 ++ l2).length :=
      Int.ofNat.inj heq.1
    simp only [List.length_append, List.length_cons] at hlen
    omega

/-- Witness for the amended C1 theorem at concrete inputs. -/
theorem fingerprint_single_cell_amended_witness :
    getMd5 ([1, 2].set 0 5) ≠ getMd5 [1, 2] ∧
      getMd5 ([1] ++ 7 :: [2]) ≠ getMd5 ([1] ++ [2]) :=
  ⟨fingerprint_single_cell_amended.1 [1, 2] 0 5 (by decide) (by decide) (by decide),
   fingerprint_single_cell_amended.2.1 [1] [2] 7⟩

/-- C2: the four list variants of the regression test, each seeded into a
fresh md5 accumulator, produce four pairwise-distinct digests. -/
theorem fingerprint_four_variants_distinct :
    [getMd5 list0, getMd5 list1, getMd5 list2, getMd5 list3].Nodup := by
  decide

/-- C3: with no selector and the classifier model type, resolution yields
the fixed classifier chain (classifier, shap) followed by the registered
third-party evaluator able to evaluate classifiers; a shap-keyed config
reaches only the shap member; a default-keyed config reaches every
built-in chain member without its own entry, and no other member. -/
theorem classifier_chain_resolution :
    resolve_evaluators_and_configs testRegistry .noEvaluators .noCfg (some "classifier") =
      .ok [⟨"classifier", []⟩, ⟨"shap", []⟩, ⟨"dummy_evaluator", []⟩] ∧
    resolve_evaluators_and_configs testRegistry .noEvaluators
        (.nested [("shap", [("a", 3)])]) (some "classifier") =
      .ok [⟨"classifier", []⟩, ⟨"shap", [("a", 3)]⟩, ⟨"dummy_evaluator", []⟩] ∧
    resolve_evaluators_and_configs testRegistry .noEvaluators
        (.nested [("default", [("a", 3)])]) (some "classifier") =
      .ok [⟨"classifier", [("a", 3)]⟩, ⟨"shap", [("a", 3)]⟩, ⟨"dummy_evaluator", []⟩] := by
  refine ⟨rfl, rfl, rfl⟩

/-- Helper: with the default alias absent from the list, each member of a
list selector expands to itself when registered and to nothing
otherwise. -/
theorem flatMap_expand_of_no_default (reg : Registry) (mt : Option String) :
    ∀ (ns : List String), "default" ∉ ns →
      ns.flatMap (expandListMember reg mt) = ns.filter fun n => reg.names.contains n := by
  intro ns
  induction ns with
  | nil => intro _; rfl
  | cons a t ih =>
    intro h
    have ha : a ≠ "default" := fun hc => h (hc ▸ List.mem_cons_self a t)
    have ht : "default" ∉ t := fun hc => h (List.mem_cons_of_mem a hc)
    rw [List.flatMap_cons, ih ht]
    unfold expandListMember
    rw [if_neg ha]
    by_cases hc : reg.names.contains a = true
    · rw [if_pos hc, List.filter_cons_of_pos hc]
      rfl
    · rw [if_neg hc, List.filter_cons_of_neg (by simpa using hc)]
      rfl

/-- C9: evaluator names absent from the registry are dropped without an
error — the single unknown name resolves to the empty list, and a list
selector (without the expanding default alias) resolves to exactly its
registered member names, in the given order. -/
theorem unknown_evaluator_names_dropped :
    resolve_evaluators_and_configs testRegistry (.single "non-existing")
        (.flat [("a", 3)]) none = .ok [] ∧
    (∀ (reg : Registry) (ns : List String) (mt : Option String),
       "default" ∉ ns →
       resolve_evaluators_and_configs reg (.names ns) .noCfg mt =
         .ok (((ns.filter fun n => reg.names.contains n).map fun n => ⟨n, []⟩))) := by
  refine ⟨rfl, ?_⟩
  intro reg ns mt h
  simp only [resolve_evaluators_and_configs, resolveErrorCheck, resolvedNames]
  rw [flatMap_expand_of_no_default reg mt ns h]
  rfl

/-- Witness for the C9 theorem: a two-name list with one unknown member
resolves to the single registered member. -/
theorem unknown_evaluator_names_dropped_witness :
    resolve_evaluators_and_configs testRegistry
        (.names ["dummy_evaluator", "non-existing"]) .noCfg (some "regressor") =
      .ok [⟨"dummy_evaluator", []⟩] :=
  unknown_evaluator_names_dropped.2 testRegistry ["dummy_evaluator", "non-existing"]
    (some "regressor") (by decide)

/-- Helper: merging into the empty aggregate keeps the mapping intact. -/
theorem mergeAssoc_nil_left {α : Type} (b : List (String × α)) :
    mergeAssoc [] b = b := by
  unfold mergeAssoc
  rw [List.map_nil, List.nil_append]
  exact List.filter_eq_self.mpr fun a _ => rfl

/-- Helper: merging into the empty result keeps the result intact. -/
theorem mergeResult_empty_left (x : EvaluationResult) : mergeResult emptyResult x = x := by
  unfold mergeResult emptyResult
  rw [mergeAssoc_nil_left, mergeAssoc_nil_left]

/-- Helper: on disjoint key sets the merge is plain concatenation. -/
theorem mergeAssoc_disjoint {α : Type} (a b : List (String × α))
    (h1 : ∀ p ∈ a, b.lookup p.1 = none) (h2 : ∀ p ∈ b, a.lookup p.1 = none) :
    mergeAssoc a b = a ++ b := by
  unfold mergeAssoc
  have hmap : ∀ (l : List (String × α)), (∀ p ∈ l, b.lookup p.1 = none) →
      (l.map fun p => (p.1, (b.lookup p.1).getD p.2)) = l := by
    intro l
    induction l with
    | nil => intro _; rfl
    | cons hd tl ih =>
      intro hl
      rw [List.map_cons, hl hd (List.mem_cons_self hd tl),
        ih fun p hp => hl p (List.mem_cons_of_mem hd hp)]
      rfl
  have hfil : (b.filter fun p => (a.lookup p.1).isNone) = b :=
    List.filter_eq_self.mpr fun p hp => by rw [h2 p hp]; rfl
  rw [hmap a h1, hfil]

/-- Helper: when no entry is capable, the fold skips every entry,
recording all capability checks and no evaluate invocation. -/
theorem foldl_dispatchStep_no_capable (mt : String) :
    ∀ (entries : List (Evaluator × Config)),
      (∀ p ∈ entries, p.1.canEvaluate mt p.2 = false) →
      ∀ acc, entries.foldl (dispatchStep mt) acc =
        (acc.1, acc.2.1 ++ entries.map fun p => (p.1.name, p.2), acc.2.2) := by
  intro entries
  induction entries with
  | nil => intro _ acc; simp
  | cons hd tl ih =>
    intro h acc
    rw [List.foldl_cons]
    have hstep : dispatchStep mt acc hd = (acc.1, acc.2.1 ++ [(hd.1.name, hd.2)], acc.2.2) := by
      unfold dispatchStep
      rw [h hd (List.mem_cons_self hd tl)]
      rfl
    rw [hstep, ih (fun p hp => h p (List.mem_cons_of_mem hd hp))]
    simp

/-- Helper: every recorded capability-check or evaluate invocation either
was already in the accumulator or names one of the folded entries with
that entry's own config. -/
theorem foldl_dispatchStep_calls (mt : String) :
    ∀ (entries : List (Evaluator × Config)) (acc) (c : String × Config),
      (c ∈ (entries.foldl (dispatchStep mt) acc).2.1 →
        c ∈ acc.2.1 ∨ ∃ p ∈ entries, c = (p.1.name, p.2)) ∧
      (c ∈ (entries.foldl (dispatchStep mt) acc).2.2 →
        c ∈ acc.2.2 ∨ ∃ p ∈ entries, c = (p.1.name, p.2)) := by
  intro entries
  induction entries with
  | nil =>
    intro acc c
    exact ⟨fun h => Or.inl h, fun h => Or.inl h⟩
  | cons hd tl ih =>
    intro acc c
    rw [List.foldl_cons]
    constructor
    · intro h
      rcases (ih (dispatchStep mt acc hd) c).1 h with h1 | ⟨p, hp, hc⟩
      · have : (dispatchStep mt acc hd).2.1 = acc.2.1 ++ [(hd.1.name, hd.2)] := by
          unfold dispatchStep
          by_cases hcan : hd.1.canEvaluate mt hd.2 = true
          · rw [hcan]; rfl
          · rw [Bool.eq_false_iff.mpr hcan]; rfl
        rw [this, List.mem_append] at h1
        rcases h1 with h1 | h1
        · exact Or.inl h1
        · exact Or.inr ⟨hd, List.mem_cons_self hd tl, by simpa using h1⟩
      · exact Or.inr ⟨p, List.mem_cons_of_mem hd hp, hc⟩
    · intro h
      rcases (ih (dispatchStep mt acc hd) c).2 h with h1 | ⟨p, hp, hc⟩
      · unfold dispatchStep at h1
        by_cases hcan : hd.1.canEvaluate mt hd.2 = true
        · rw [hcan] at h1
          simp only [if_true] at h1
          rw [List.mem_append] at h1
          rcases h1 with h1 | h1
          · exact Or.inl h1
          · exact Or.inr ⟨hd, List.mem_cons_self hd tl, by simpa using h1⟩
        · rw [Bool.eq_false_iff.mpr hcan] at h1
          exact Or.inl h1
      · exact Or.inr ⟨p, List.mem_cons_of_mem hd hp, hc⟩

/-- C4: when every resolved evaluator's capability check declines, the
call fails with the no-capable-evaluator error and no evaluate method is
invoked, so no metrics or artifacts are produced. -/
theorem no_capable_evaluator_fails (entries : List (Evaluator × Config)) (mt : String)
    (h : ∀ p ∈ entries, p.1.canEvaluate mt p.2 = false) :
    (dispatch entries mt).result = .error noCapableEvaluatorError ∧
      (dispatch entries mt).evalCalls = [] := by
  unfold dispatch
  rw [foldl_dispatchStep_no_capable mt entries h (emptyResult, [], [])]
  exact ⟨rfl, rfl⟩

/-- Witness for the C4 theorem on a concrete two-evaluator list that
always declines. -/
theorem no_capable_evaluator_fails_witness :
    (dispatch
        [(Evaluator.mk "e1" (fun _ _ => false) (EvaluationResult.mk [("m", 1)] []), [("a", 1)]),
         (Evaluator.mk "e2" (fun _ _ => false) (EvaluationResult.mk [("m", 2)] []), [])]
        "classifier").result = .error noCapableEvaluatorError ∧
      (dispatch
        [(Evaluator.mk "e1" (fun _ _ => false) (EvaluationResult.mk [("m", 1)] []), [("a", 1)]),
         (Evaluator.mk "e2" (fun _ _ => false) (EvaluationResult.mk [("m", 2)] []), [])]
        "classifier").evalCalls = [] :=
  no_capable_evaluator_fails _ "classifier" (by decide)

/-- Helper: dispatching two capable evaluators merges the second result
into the first, in resolution order, and records both invocations. -/
theorem dispatch_two_capable (A B : Evaluator) (cA cB : Config) (mt : String)
    (hA : A.canEvaluate mt cA = true) (hB : B.canEvaluate mt cB = true) :
    dispatch [(A, cA), (B, cB)] mt =
      ⟨.ok (mergeResult A.result B.result),
       [(A.name, cA), (B.name, cB)], [(A.name, cA), (B.name, cB)]⟩ := by
  unfold dispatch
  rw [List.foldl_cons, List.foldl_cons, List.foldl_nil]
  have s1 : dispatchStep mt (emptyResult, [], []) (A, cA) =
      (mergeResult emptyResult A.result, [(A.name, cA)], [(A.name, cA)]) := by
    unfold dispatchStep
    rw [hA]
    rfl
  rw [s1, mergeResult_empty_left]
  have s2 : dispatchStep mt (A.result, [(A.name, cA)], [(A.name, cA)]) (B, cB) =
      (mergeResult A.result B.result,
       [(A.name, cA), (B.name, cB)], [(A.name, cA), (B.name, cB)]) := by
    unfold dispatchStep
    rw [hB]
    rfl
  rw [s2]
  rfl

/-- C5: aggregation is a left-to-right union in resolution order — when
the earlier evaluator yields metric m = 1 and the later yields m = 2 the
aggregate holds m = 2, and on disjoint metric and artifact names the
aggregate is exactly the union (concatenation) of both evaluators'
mappings. -/
theorem aggregation_union_last_writer_wins :
    (∀ (A B : Evaluator) (cA cB : Config) (mt : String),
       A.canEvaluate mt cA = true → B.canEvaluate mt cB = true →
       A.result.metrics = [("m", 1)] → B.result.metrics = [("m", 2)] →
       (dispatch [(A, cA), (B, cB)] mt).result.map (fun r => r.metrics) =
         .ok [("m", 2)]) ∧
    (∀ (A B : Evaluator) (cA cB : Config) (mt : String),
       A.canEvaluate mt cA = true → B.canEvaluate mt cB = true →
       (∀ p ∈ A.result.metrics, B.result.metrics.lookup p.1 = none) →
       (∀ p ∈ B.result.metrics, A.result.metrics.lookup p.1 = none) →
       (∀ p ∈ A.result.artifacts, B.result.artifacts.lookup p.1 = none) →
       (∀ p ∈ B.result.artifacts, A.result.artifacts.lookup p.1 = none) →
       (dispatch [(A, cA), (B, cB)] mt).result =
         .ok ⟨A.result.metrics ++ B.result.metrics,
              A.result.artifacts ++ B.result.artifacts⟩) := by
  constructor
  · intro A B cA cB mt hA hB hAm hBm
    rw [dispatch_two_capable A B cA cB mt hA hB]
    show Except.ok (mergeResult A.result B.result).metrics = _
    unfold mergeResult
    rw [hAm, hBm]
    rfl
  · intro A B cA cB mt hA hB h1 h2 h3 h4
    rw [dispatch_two_capable A B cA cB mt hA hB]
    unfold mergeResult
    rw [mergeAssoc_disjoint _ _ h1 h2, mergeAssoc_disjoint _ _ h3 h4]

/-- Witness for the C5 theorem on concrete evaluator pairs: a colliding
metric name keeps the later value, and disjoint names concatenate. -/
theorem aggregation_union_last_writer_wins_witness :
    (dispatch
        [(Evaluator.mk "A" (fun _ _ => true) (EvaluationResult.mk [("m", 1)] []), []),
         (Evaluator.mk "B" (fun _ _ => true) (EvaluationResult.mk [("m", 2)] []), [])]
        "classifier").result.map (fun r => r.metrics) = .ok [("m", 2)] ∧
    (dispatch
        [(Evaluator.mk "A" (fun _ _ => true)
            (EvaluationResult.mk [("m1", 5)] [("a1", Artifact.mk "uri1" "K1" "x")]), []),
         (Evaluator.mk "B" (fun _ _ => true)
            (EvaluationResult.mk [("m2", 6)] [("a2", Artifact.mk "uri2" "K2" "y")]), [])]
        "classifier").result =
      .ok ⟨[("m1", 5), ("m2", 6)],
           [("a1", Artifact.mk "uri1" "K1" "x"), ("a2", Artifact.mk "uri2" "K2" "y")]⟩ :=
  ⟨aggregation_union_last_writer_wins.1 _ _ [] [] "classifier" rfl rfl rfl rfl,
   aggregation_union_last_writer_wins.2 _ _ [] [] "classifier" rfl rfl
     (by decide) (by decide) (by decide) (by decide)⟩

/-- C10: an absent evaluator_config resolves to the empty mapping as
every entry's effective config, never to an absent one, and dispatch then
passes exactly that empty mapping to every recorded capability check and
evaluate invocation. -/
theorem none_config_resolves_to_empty_mapping :
    (∀ (reg : Registry) (sel : EvaluatorsArg) (mt : Option String)
       (es : List ResolvedEvaluator),
       resolve_evaluators_and_configs reg sel .noCfg mt = .ok es →
       ∀ e ∈ es, e.config = []) ∧
    (∀ (entries : List (Evaluator × Config)) (mt : String),
       (∀ p ∈ entries, p.2 = ([] : Config)) →
       (∀ c ∈ (dispatch entries mt).canCalls, c.2 = ([] : Config)) ∧
       (∀ c ∈ (dispatch entries mt).evalCalls, c.2 = ([] : Config))) := by
  constructor
  · intro reg sel mt es hres e he
    unfold resolve_evaluators_and_configs at hres
    rcases hcheck : resolveErrorCheck sel EvaluatorConfigArg.noCfg mt with _ | err
    · rw [hcheck] at hres
      simp only [Except.ok.injEq] at hres
      rcases List.mem_map.mp (hres ▸ he) with ⟨n, _, hn⟩
      rw [← hn]
      rfl
    · rw [hcheck] at hres
      exact absurd hres (by simp)
  · intro entries mt h
    have hcalls : (dispatch entries mt).canCalls =
          (entries.foldl (dispatchStep mt) (emptyResult, [], [])).2.1 ∧
        (dispatch entries mt).evalCalls =
          (entries.foldl (dispatchStep mt) (emptyResult, [], [])).2.2 := by
      unfold dispatch
      by_cases hc :
          (entries.foldl (dispatchStep mt) (emptyResult, [], [])).2.2.isEmpty = true
      · rw [if_pos hc]
        exact ⟨rfl, rfl⟩
      · rw [if_neg hc]
        exact ⟨rfl, rfl⟩
    constructor
    · intro c hc
      rw [hcalls.1] at hc
      rcases (foldl_dispatchStep_calls mt entries (emptyResult, [], []) c).1 hc with
        h0 | ⟨p, hp, hcp⟩
      · exact absurd h0 (List.not_mem_nil c)
      · rw [hcp]
        exact h p hp
    · intro c hc
      rw [hcalls.2] at hc
      rcases (foldl_dispatchStep_calls mt entries (emptyResult, [], []) c).2 hc with
        h0 | ⟨p, hp, hcp⟩
      · exact absurd h0 (List.not_mem_nil c)
      · rw [hcp]
        exact h p hp

/-- Witness for the C10 theorem: the shap entry of the classifier-chain
resolution under an absent config carries the empty mapping, and a
concrete capable entry with the empty config is invoked with it. -/
theorem none_config_resolves_to_empty_mapping_witness :
    (ResolvedEvaluator.mk "shap" []).config = ([] : Config) ∧
      ("E", ([] : Config)).2 = ([] : Config) :=
  ⟨none_config_resolves_to_empty_mapping.1 testRegistry .noEvaluators (some "classifier")
      [⟨"classifier", []⟩, ⟨"shap", []⟩, ⟨"dummy_evaluator", []⟩] rfl
      (ResolvedEvaluator.mk "shap" []) (by decide),
   (none_config_resolves_to_empty_mapping.2
      [(Evaluator.mk "E" (fun _ _ => true) (EvaluationResult.mk [("m", 1)] []), [])]
      "classifier" (by decide)).2 ("E", []) (by decide)⟩

/-- C8: a model_id parameter contradicting the identity associated with
the model fails the call immediately with the descriptive error naming
both ids, before any evaluator invocation is recorded; a matching or
omitted model_id parameter lets the call proceed to dispatch normally. -/
theorem model_id_consistency_check :
    (∀ (u p : String) (entries : List (Evaluator × Config)) (mt : String),
       p ≠ u →
       evaluateCall (some u) (some p) entries mt =
         ⟨.error (modelIdContradictionError p u), [], []⟩) ∧
    (∀ (u : String) (entries : List (Evaluator × Config)) (mt : String),
       evaluateCall (some u) (some u) entries mt = dispatch entries mt) ∧
    (∀ (u : String) (entries : List (Evaluator × Config)) (mt : String),
       evaluateCall (some u) none entries mt = dispatch entries mt) := by
  refine ⟨?_, ?_, ?_⟩
  · intro u p entries mt h
    simp only [evaluateCall, checkModelIdConsistency]
    rw [if_neg h]
  · intro u entries mt
    simp [evaluateCall, checkModelIdConsistency]
  · intro u entries mt
    rfl

/-- Witness for the C8 theorem at concrete identities: differing ids fail
with the contradiction error, equal ids proceed. -/
theorem model_id_consistency_check_witness :
    evaluateCall (some "id-logged") (some "id-param") [] "classifier" =
      ⟨.error (modelIdContradictionError "id-param" "id-logged"), [], []⟩ ∧
    evaluateCall (some "id-logged") (some "id-logged") [] "classifier" =
      dispatch [] "classifier" :=
  ⟨model_id_consistency_check.1 "id-logged" "id-param" [] "classifier" (by decide),
   model_id_consistency_check.2.1 "id-logged" [] "classifier"⟩

/-- Helper: in the artifacts directory written by save, looking up an
artifact's file name recovers that artifact's content, provided the file
names are pairwise distinct. -/
theorem lookup_saved_artifact :
    ∀ (l : List (String × Artifact)),
      (l.map fun p => artifactFileName p.1 p.2.className).Nodup →
      ∀ p ∈ l,
        (l.map fun q => (artifactFileName q.1 q.2.className, q.2.content)).lookup
          (artifactFileName p.1 p.2.className) = some p.2.content := by
  intro l
  induction l with
  | nil => intro _ p hp; exact absurd hp (List.not_mem_nil p)
  | cons hd tl ih =>
    intro hnd p hp
    rw [List.map_cons, List.nodup_cons] at hnd
    rcases List.mem_cons.mp hp with h | h
    · subst h
      simp [List.lookup]
    · have hmem : artifactFileName p.1 p.2.className ∈
          tl.map fun q => artifactFileName q.1 q.2.className :=
        List.mem_map_of_mem _ h
      have hne : artifactFileName p.1 p.2.className ≠
          artifactFileName hd.1 hd.2.className :=
        fun hc => hnd.1 (hc ▸ hmem)
      rw [List.map_cons]
      simp only [List.lookup, beq_eq_false_iff_ne.mpr hne]
      exact ih hnd.2 p h

/-- C6: saving an evaluation result to the persisted form (metrics.json,
artifacts_metadata.json, artifacts directory) and loading it back yields
the identical metric mapping and, per artifact name, the identical uri,
class identity and content re-loaded from the saved file — provided the
artifact file names do not collide. -/
theorem evaluation_result_round_trip (r : EvaluationResult)
    (h : (r.artifacts.map fun p => artifactFileName p.1 p.2.className).Nodup) :
    (EvaluationResult.load (EvaluationResult.save r)).metrics = r.metrics ∧
      (EvaluationResult.load (EvaluationResult.save r)).artifacts = r.artifacts ∧
      (EvaluationResult.save r).metricsJson = r.metrics := by
  refine ⟨rfl, ?_, rfl⟩
  show ((r.artifacts.map fun p => (p.1, p.2.uri, p.2.className)).map fun q =>
      (q.1, ⟨q.2.1, q.2.2,
        ((r.artifacts.map fun p =>
            (artifactFileName p.1 p.2.className, p.2.content)).lookup
          (artifactFileName q.1 q.2.2)).getD ""⟩)) = r.artifacts
  rw [List.map_map]
  have hcongr : ∀ p ∈ r.artifacts,
      ((fun q : String × String × String =>
          ((q.1, ⟨q.2.1, q.2.2,
            ((r.artifacts.map fun p2 =>
                (artifactFileName p2.1 p2.2.className, p2.2.content)).lookup
              (artifactFileName q.1 q.2.2)).getD ""⟩) : String × Artifact)) ∘
        fun p => (p.1, p.2.uri, p.2.className)) p = id p := by
    intro p hp
    show ((p.1, ⟨p.2.uri, p.2.className,
        ((r.artifacts.map fun p2 =>
            (artifactFileName p2.1 p2.2.className, p2.2.content)).lookup
          (artifactFileName p.1 p.2.className)).getD ""⟩) : String × Artifact) = p
    rw [lookup_saved_artifact r.artifacts h p hp]
    rfl
  rw [List.map_congr_left hcongr, List.map_id]

/-- Witness for the C6 theorem on a concrete result with two metrics and
two artifacts of distinct classes. -/
theorem evaluation_result_round_trip_witness :
    (EvaluationResult.load (EvaluationResult.save
        (EvaluationResult.mk [("acc", 1), ("f1", 2)]
          [("confusion_matrix", Artifact.mk "uri-a" "Array2DEvaluationArtifact" "1,2;3,4"),
           ("confusion_matrix_image",
            Artifact.mk "uri-b" "mlflow.models.evaluation.artifacts.ImageEvaluationArtifact"
              "pngbytes")]))).metrics = [("acc", 1), ("f1", 2)] ∧
    (EvaluationResult.load (EvaluationResult.save
        (EvaluationResult.mk [("acc", 1), ("f1", 2)]
          [("confusion_matrix", Artifact.mk "uri-a" "Array2DEvaluationArtifact" "1,2;3,4"),
           ("confusion_matrix_image",
            Artifact.mk "uri-b" "mlflow.models.evaluation.artifacts.ImageEvaluationArtifact"
              "pngbytes")]))).artifacts =
      [("confusion_matrix", Artifact.mk "uri-a" "Array2DEvaluationArtifact" "1,2;3,4"),
       ("confusion_matrix_image",
        Artifact.mk "uri-b" "mlflow.models.evaluation.artifacts.ImageEvaluationArtifact"
          "pngbytes")] := by
  have h := evaluation_result_round_trip
    (EvaluationResult.mk [("acc", 1), ("f1", 2)]
      [("confusion_matrix", Artifact.mk "uri-a" "Array2DEvaluationArtifact" "1,2;3,4"),
       ("confusion_matrix_image",
        Artifact.mk "uri-b" "mlflow.models.evaluation.artifacts.ImageEvaluationArtifact"
          "pngbytes")]) (by decide)
  exact ⟨h.1, h.2.1⟩

/-- Helper: whitespace-freedom distributes over string concatenation. -/
theorem hasNoWhitespace_append (a b : String) :
    hasNoWhitespace (a ++ b) = (hasNoWhitespace a && hasNoWhitespace b) := by
  unfold hasNoWhitespace
  rw [String.data_append, List.all_append]

/-- Helper: a serialized metadata entry is whitespace-free when all of
its fields are. -/
theorem serializeDatasetMeta_noWhitespace (m : DatasetMeta)
    (h : metaNoWhitespace m = true) : hasNoWhitespace (serializeDatasetMeta m) = true := by
  rcases m with ⟨mh, mn, mp, mm⟩
  unfold metaNoWhitespace at h
  simp only [Bool.and_eq_true] at h
  obtain ⟨⟨⟨hh, hn⟩, hp⟩, hm⟩ := h
  cases mp with
  | none =>
    unfold serializeDatasetMeta
    simp only [hasNoWhitespace_append, hh, hn, hm, Bool.and_true, Bool.true_and]
    decide
  | some p =>
    have hp2 : hasNoWhitespace p = true := hp
    unfold serializeDatasetMeta
    simp only [hasNoWhitespace_append, hh, hn, hm, hp2, Bool.and_true, Bool.true_and]
    decide

/-- Helper: the comma join of whitespace-free strings is
whitespace-free. -/
theorem joinComma_noWhitespace :
    ∀ (l : List String), (∀ s ∈ l, hasNoWhitespace s = true) →
      hasNoWhitespace (joinComma l) = true := by
  intro l
  induction l with
  | nil => intro _; decide
  | cons s t ih =>
    intro h
    cases t with
    | nil => exact h s (List.mem_cons_self s [])
    | cons s2 t2 =>
      show hasNoWhitespace (s ++ "," ++ joinComma (s2 :: t2)) = true
      simp only [hasNoWhitespace_append, Bool.and_eq_true]
      refine ⟨⟨h s (List.mem_cons_self _ _), by decide⟩, ?_⟩
      exact ih fun x hx => h x (List.mem_cons_of_mem s hx)

/-- C7: logging a dataset tag is idempotent per content hash (logging the
same metadata twice leaves the tag unchanged), a dataset with a different
hash is appended after the existing entry, and the serialized tag string
contains no whitespace characters when the entries' fields contain
none. -/
theorem dataset_tag_append_dedup_no_whitespace :
    (∀ (s : List DatasetMeta) (m : DatasetMeta),
       logDatasetTag (logDatasetTag s m) m = logDatasetTag s m) ∧
    (∀ (m1 m2 : DatasetMeta), m1.hash ≠ m2.hash →
       logDatasetTag (logDatasetTag [] m1) m2 = [m1, m2]) ∧
    (∀ (l : List DatasetMeta), (∀ m ∈ l, metaNoWhitespace m = true) →
       hasNoWhitespace (serializeDatasetsTag l) = true) := by
  refine ⟨?_, ?_, ?_⟩
  · intro s m
    unfold logDatasetTag
    by_cases h : (s.any fun e => e.hash == m.hash) = true
    · rw [if_pos h, if_pos h]
    · rw [if_neg h]
      have h2 : ((s ++ [m]).any fun e => e.hash == m.hash) = true := by
        rw [List.any_append]
        simp
      rw [if_pos h2]
  · intro m1 m2 h
    unfold logDatasetTag
    have h1 : (([] : List DatasetMeta).any fun e => e.hash == m1.hash) = false := rfl
    rw [h1]
    simp only [Bool.false_eq_true, if_false, List.nil_append]
    have h2 : (([m1]).any fun e => e.hash == m2.hash) = false := by
      simp [beq_eq_false_iff_ne.mpr h]
    rw [h2]
    rfl
  · intro l h
    unfold serializeDatasetsTag
    simp only [hasNoWhitespace_append, Bool.and_eq_true]
    refine ⟨⟨by decide, ?_⟩, by decide⟩
    refine joinComma_noWhitespace _ fun s hs => ?_
    rcases List.mem_map.mp hs with ⟨m, hm, rfl⟩
    exact serializeDatasetMeta_noWhitespace m (h m hm)

/-- Witness for the C7 theorem at concrete metadata entries. -/
theorem dataset_tag_append_dedup_no_whitespace_witness :
    logDatasetTag (logDatasetTag [] (DatasetMeta.mk "h1" "iris" (some "/p/a") "mid"))
        (DatasetMeta.mk "h1" "iris" (some "/p/a") "mid") =
      logDatasetTag [] (DatasetMeta.mk "h1" "iris" (some "/p/a") "mid") ∧
    logDatasetTag (logDatasetTag [] (DatasetMeta.mk "h1" "iris" (some "/p/a") "mid"))
        (DatasetMeta.mk "h2" "iris_pd" none "mid") =
      [DatasetMeta.mk "h1" "iris" (some "/p/a") "mid",
       DatasetMeta.mk "h2" "iris_pd" none "mid"] ∧
    hasNoWhitespace (serializeDatasetsTag
        [DatasetMeta.mk "h1" "iris" (some "/p/a") "mid",
         DatasetMeta.mk "h2" "iris_pd" none "mid"]) = true :=
  ⟨dataset_tag_append_dedup_no_whitespace.1 []
      (DatasetMeta.mk "h1" "iris" (some "/p/a") "mid"),
   dataset_tag_append_dedup_no_whitespace.2.1
      (DatasetMeta.mk "h1" "iris" (some "/p/a") "mid")
      (DatasetMeta.mk "h2" "iris_pd" none "mid") (by decide),
   dataset_tag_append_dedup_no_whitespace.2.2
      [DatasetMeta.mk "h1" "iris" (some "/p/a") "mid",
       DatasetMeta.mk "h2" "iris_pd" none "mid"] (by decide)⟩

end MlflowEval
